import Mathlib

/-!
Shallow embedding of `pba/helper_utils.py` (training-loop helpers for PBA
models): `eval_child_model`, `step_lr`, `get_lr`, `run_epoch_training`.

Modelling conventions:
* Python floats are embedded as rationals (`ℚ`); integer quantities as `ℕ`.
* Exceptions (`ValueError`, `AssertionError`, `ZeroDivisionError`) are made
  explicit through `Except PyError`.
* The external execution engine (`session.run`) is abstracted as a function
  argument producing the predictions for each fed batch; the external data
  loader's `next_batch` is a function from the call index and epoch to a
  batch.  The external `cosine_lr` helper (imported from the sibling
  `autoaugment` package, not part of this fragment) is a function parameter.
* Observable effects needed by the claims are threaded through return
  values: the number of `session.run` evaluation calls, the number of
  `next_batch` fetches, the list of `iteration` arguments passed to
  `get_lr`, and whether the fallback warning was logged.
-/

/-- Python exception kinds raised by the code in this fragment. -/
inductive PyError
  | valueError
  | assertionError
  | zeroDivisionError
  deriving DecidableEq, Repr

/-- The hparams object consumed by `get_lr` and `run_epoch_training`
(`dataset`, `model_name`, `lr`, `num_epochs`, `train_size`, `batch_size`). -/
structure HParams where
  dataset : String
  model_name : String
  lr : ℚ
  num_epochs : ℕ
  train_size : ℕ
  batch_size : ℕ

/-- Substring containment on character lists: `needle` occurs contiguously
inside `hay` (the empty needle occurs in everything). -/
def listContains (needle : List Char) : List Char → Bool
  | [] => needle.isEmpty
  | c :: rest => needle.isPrefixOf (c :: rest) || listContains needle rest

/-- Python's substring test `needle in hay` on strings. -/
def strIn (needle hay : String) : Bool :=
  listContains needle.toList hay.toList

/-- Body of the inner `get_lr(epoch)` closure defined inside `step_lr`:
`learning_rate` for epochs below 80, `learning_rate * 0.1` below 120,
`learning_rate * 0.01` otherwise. -/
def step_lr_inner (learning_rate : ℚ) (epoch : ℕ) : ℚ :=
  if epoch < 80 then learning_rate
  else if epoch < 120 then learning_rate * 0.1
  else learning_rate * 0.01

/-- `step_lr(learning_rate, epoch)` from the source: it defines the inner
function and returns it **without calling it**; the outer `epoch` argument
is never used. -/
def step_lr (learning_rate : ℚ) (_epoch : ℕ) : ℕ → ℚ :=
  step_lr_inner learning_rate

/-- A Python value assigned to `lr` inside `get_lr`: either a float or a
function object (the closure returned by `step_lr`). -/
inductive LrValue
  | float (x : ℚ)
  | closure (f : ℕ → ℚ)

/-- Whether an `LrValue` is a float. -/
def LrValue.isFloat : LrValue → Bool
  | .float _ => true
  | .closure _ => false

/-- Result of a successful `get_lr` call: the returned value together with
whether the `Default to cosine learning rate.` warning was logged. -/
structure LrResult where
  value : LrValue
  warned : Bool

/-- The branch structure of `get_lr` after the `iteration` assertion and
the `batches_per_epoch` computation have succeeded.  `cosine_lr` is the
external schedule function `cosine_lr(lr, epoch, iteration, batches_per_epoch,
num_epochs)`. -/
def get_lr_core (cosine_lr : ℚ → ℕ → ℕ → ℕ → ℕ → ℚ)
    (curr_epoch : ℕ) (hparams : HParams) (iteration : ℕ) : LrResult :=
  let batches_per_epoch := hparams.train_size / hparams.batch_size
  if strIn "svhn" hparams.dataset && strIn "wrn" hparams.model_name then
    ⟨.closure (step_lr hparams.lr curr_epoch), false⟩
  else if strIn "cifar" hparams.dataset ||
      (strIn "svhn" hparams.dataset && strIn "shake_shake" hparams.model_name) then
    ⟨.float (cosine_lr hparams.lr curr_epoch iteration batches_per_epoch
        hparams.num_epochs), false⟩
  else
    ⟨.float (cosine_lr hparams.lr curr_epoch iteration batches_per_epoch
        hparams.num_epochs), true⟩

/-- `get_lr(curr_epoch, hparams, iteration=None)` from the source:
asserts `iteration is not None`, computes
`batches_per_epoch = int(hparams.train_size / hparams.batch_size)` (a
`ZeroDivisionError` when `batch_size` is zero), then dispatches on
dataset/model-name substrings. -/
def get_lr (cosine_lr : ℚ → ℕ → ℕ → ℕ → ℕ → ℚ)
    (curr_epoch : ℕ) (hparams : HParams) (iteration : Option ℕ) :
    Except PyError LrResult :=
  match iteration with
  | none => .error .assertionError
  | some it =>
    if hparams.batch_size = 0 then .error .zeroDivisionError
    else .ok (get_lr_core cosine_lr curr_epoch hparams it)

/-- `np.argmax` on one row: index of the first maximal entry.
`argmax_from best_idx best i l` scans `l`, whose head sits at index `i`,
with current best value `best` at index `best_idx`. -/
def argmax_from (best_idx : ℕ) (best : ℚ) (i : ℕ) : List ℚ → ℕ
  | [] => best_idx
  | x :: xs => if best < x then argmax_from i x (i + 1) xs
               else argmax_from best_idx best (i + 1) xs

/-- `np.argmax(row)`; numpy raises on an empty array, which no claim
exercises, so the empty row is mapped to index 0. -/
def np_argmax : List ℚ → ℕ
  | [] => 0
  | x :: xs => argmax_from 0 x 1 xs

/-- `np.sum(np.equal(np.argmax(labels, 1), np.argmax(preds, 1)))`: the
number of rows whose argmax agrees between `labels` and `preds` (rows are
paired positionally; a length mismatch drops the excess, which the claims
rule out by hypothesis). -/
def num_matches (labels preds : List (List ℚ)) : ℕ :=
  (List.zipWith
    (fun a b => if np_argmax a = np_argmax b then 1 else 0) labels preds).sum

/-- The Python slice `l[i*B:(i+1)*B]`. -/
def batch_slice (l : List α) (B i : ℕ) : List α :=
  (l.drop (i * B)).take B

/-- `eval_batches` from `eval_child_model`: `int(N / B)`, plus one when
`N % B != 0`. -/
def eval_batches_of (N B : ℕ) : ℕ :=
  N / B + (if N % B ≠ 0 then 1 else 0)

/-- The evaluation loop of `eval_child_model` over batches `0 .. n-1`:
accumulates (`correct`, `count`).  `predsOf eval_images eval_labels` is what
`session.run(model.predictions, feed_dict=...)` returns for one batch. -/
def eval_loop (predsOf : List α → List (List ℚ) → List (List ℚ))
    (B : ℕ) (images : List α) (labels : List (List ℚ)) : ℕ → ℕ × ℕ
  | 0 => (0, 0)
  | n + 1 =>
    let acc := eval_loop predsOf B images labels n
    let eval_labels := batch_slice labels B n
    let preds := predsOf (batch_slice images B n) eval_labels
    (acc.1 + num_matches eval_labels preds, acc.2 + preds.length)

/-- Outcome of an `eval_child_model` call: the returned accuracy or the
exception, together with how many evaluation batches were actually run
through `session.run`. -/
structure EvalOutcome where
  res : Except PyError ℚ
  batches_run : ℕ

/-- Lines 51–72 of `eval_child_model`, after the image/label arrays have
been selected: the length assertion, batch counting, the evaluation loop,
the count assertion, and the final division `correct / count` (a
`ZeroDivisionError` when no prediction was counted). -/
def eval_on (predsOf : List α → List (List ℚ) → List (List ℚ))
    (batch_size : ℕ) (images : List α) (labels : List (List ℚ)) :
    EvalOutcome :=
  if images.length ≠ labels.length then ⟨.error .assertionError, 0⟩
  else if batch_size = 0 then ⟨.error .zeroDivisionError, 0⟩
  else
    let eval_batches := eval_batches_of images.length batch_size
    let acc := eval_loop predsOf batch_size images labels eval_batches
    if acc.2 ≠ images.length then ⟨.error .assertionError, eval_batches⟩
    else if acc.2 = 0 then ⟨.error .zeroDivisionError, eval_batches⟩
    else ⟨.ok ((acc.1 : ℚ) / (acc.2 : ℚ)), eval_batches⟩

/-- The external data loader: held-out arrays read by `eval_child_model`. -/
structure DataLoader (α : Type) where
  val_images : List α
  val_labels : List (List ℚ)
  test_images : List α
  test_labels : List (List ℚ)

/-- `eval_child_model(session, model, data_loader, mode)`: selects the
validation or test arrays by `mode`, raising `ValueError` otherwise, then
evaluates via `eval_on`. -/
def eval_child_model (predsOf : List α → List (List ℚ) → List (List ℚ))
    (batch_size : ℕ) (data_loader : DataLoader α) (mode : String) :
    EvalOutcome :=
  if mode = "val" then
    eval_on predsOf batch_size data_loader.val_images data_loader.val_labels
  else if mode = "test" then
    eval_on predsOf batch_size data_loader.test_images data_loader.test_labels
  else ⟨.error .valueError, 0⟩

/-- Accumulator of the training loop in `run_epoch_training`:
running `correct`, running `count`, the number of `data_loader.next_batch`
calls made, and the `iteration` arguments passed to `get_lr` inside the
loop (in order). -/
structure TrainAcc where
  correct : ℕ
  count : ℕ
  fetched : ℕ
  lr_iters : List (Option ℕ)

/-- The training loop of `run_epoch_training` over steps `0 .. n-1`.
`next_batch call_idx curr_epoch` is the batch returned by the stateful
`data_loader.next_batch(curr_epoch)` on its `call_idx`-th call;
`predsOf step imgs lbls` is what `session.run([train_op, global_step,
predictions], feed_dict=...)` returns as predictions at that step. -/
def train_loop (predsOf : ℕ → List α → List (List ℚ) → List (List ℚ))
    (next_batch : ℕ → ℕ → List α × List (List ℚ))
    (curr_epoch : ℕ) : ℕ → TrainAcc
  | 0 => ⟨0, 0, 0, []⟩
  | n + 1 =>
    let acc := train_loop predsOf next_batch curr_epoch n
    let batch := next_batch n curr_epoch
    let preds := predsOf n batch.1 batch.2
    ⟨acc.correct + num_matches batch.2 preds, acc.count + preds.length,
      acc.fetched + 1, acc.lr_iters ++ [some (n + 1)]⟩

/-- Outcome of a `run_epoch_training` call: the returned training accuracy
or the exception, the number of `next_batch` fetches performed, and every
`iteration` argument passed to `get_lr` (the pre-loop call included). -/
structure TrainOutcome where
  res : Except PyError ℚ
  fetched : ℕ
  lr_iters : List (Option ℕ)

/-- `run_epoch_training(session, model, data_loader, curr_epoch)`:
computes `steps_per_epoch = int(train_size / batch_size)` (a
`ZeroDivisionError` when `batch_size` is zero), reads the engine's global
step and asserts it is a multiple of `steps_per_epoch` (the modulo itself
raising `ZeroDivisionError` when `steps_per_epoch` is zero), calls
`get_lr` with `iteration=0`, runs the training loop calling `get_lr` with
`iteration=step+1` at each step, and returns `correct / count` (a
`ZeroDivisionError` when `count` is zero). -/
def run_epoch_training (cosine_lr : ℚ → ℕ → ℕ → ℕ → ℕ → ℚ)
    (predsOf : ℕ → List α → List (List ℚ) → List (List ℚ))
    (next_batch : ℕ → ℕ → List α × List (List ℚ))
    (hparams : HParams) (curr_step curr_epoch : ℕ) : TrainOutcome :=
  if hparams.batch_size = 0 then ⟨.error .zeroDivisionError, 0, []⟩
  else
    let steps_per_epoch := hparams.train_size / hparams.batch_size
    if steps_per_epoch = 0 then ⟨.error .zeroDivisionError, 0, []⟩
    else if curr_step % steps_per_epoch ≠ 0 then ⟨.error .assertionError, 0, []⟩
    else
      match get_lr cosine_lr curr_epoch hparams (some 0) with
      | .error e => ⟨.error e, 0, [some 0]⟩
      | .ok _ =>
        let acc := train_loop predsOf next_batch curr_epoch steps_per_epoch
        if acc.count = 0 then
          ⟨.error .zeroDivisionError, acc.fetched, some 0 :: acc.lr_iters⟩
        else
          ⟨.ok ((acc.correct : ℚ) / (acc.count : ℚ)), acc.fetched,
            some 0 :: acc.lr_iters⟩

/-- Total matches accumulated over an epoch of `n` steps, written as an
explicit sum over the step index. -/
def epoch_correct (predsOf : ℕ → List α → List (List ℚ) → List (List ℚ))
    (next_batch : ℕ → ℕ → List α × List (List ℚ))
    (curr_epoch n : ℕ) : ℕ :=
  ((List.range n).map (fun s =>
    num_matches (next_batch s curr_epoch).2
      (predsOf s (next_batch s curr_epoch).1 (next_batch s curr_epoch).2))).sum

/-- Total number of predictions accumulated over an epoch of `n` steps,
written as an explicit sum over the step index. -/
def epoch_count (predsOf : ℕ → List α → List (List ℚ) → List (List ℚ))
    (next_batch : ℕ → ℕ → List α × List (List ℚ))
    (curr_epoch n : ℕ) : ℕ :=
  ((List.range n).map (fun s =>
    (predsOf s (next_batch s curr_epoch).1 (next_batch s curr_epoch).2).length)).sum

/-- Whether an evaluation/training result is an `AssertionError`. -/
def isAssertionErr : Except PyError ℚ → Bool
  | .error .assertionError => true
  | _ => false

/-- The image array `eval_child_model` selects for a valid `mode`. -/
def sel_images {α : Type} (data_loader : DataLoader α) (mode : String) : List α :=
  if mode = "val" then data_loader.val_images else data_loader.test_images

/-- The label array `eval_child_model` selects for a valid `mode`. -/
def sel_labels {α : Type} (data_loader : DataLoader α) (mode : String) :
    List (List ℚ) :=
  if mode = "val" then data_loader.val_labels else data_loader.test_labels

/-! ### Helper lemmas -/

lemma batch_slice_length {α : Type} (l : List α) (B i : ℕ) :
    (batch_slice l B i).length = min B (l.length - i * B) := by
  simp [batch_slice]

lemma num_matches_le (lbls preds : List (List ℚ)) :
    num_matches lbls preds ≤ preds.length := by
  induction lbls generalizing preds with
  | nil => simp [num_matches]
  | cons a as ih =>
    cases preds with
    | nil => simp [num_matches]
    | cons b bs =>
      have h := ih bs
      simp only [num_matches, List.zipWith_cons_cons, List.sum_cons,
        List.length_cons] at h ⊢
      split <;> omega

lemma num_matches_eq_of_argmax_eq (lbls preds : List (List ℚ))
    (hlen : preds.length = lbls.length)
    (h : ∀ p ∈ lbls.zip preds, np_argmax p.1 = np_argmax p.2) :
    num_matches lbls preds = preds.length := by
  induction lbls generalizing preds with
  | nil =>
    cases preds with
    | nil => simp [num_matches]
    | cons b bs => simp at hlen
  | cons a as ih =>
    cases preds with
    | nil => simp at hlen
    | cons b bs =>
      have hab : np_argmax a = np_argmax b :=
        h (a, b) (by rw [List.zip_cons_cons]; exact List.mem_cons_self _ _)
      have htail := ih bs (by simpa using hlen)
        (fun p hp => h p (by rw [List.zip_cons_cons]; exact List.mem_cons_of_mem _ hp))
      simp only [num_matches, List.zipWith_cons_cons, List.sum_cons,
        List.length_cons, hab, if_pos] at htail ⊢
      omega

lemma eval_batches_of_mod_zero (N B : ℕ) (h : N % B = 0) :
    eval_batches_of N B = N / B := by
  simp [eval_batches_of, h]

lemma eval_batches_of_mod_pos (N B : ℕ) (h : N % B ≠ 0) :
    eval_batches_of N B = N / B + 1 := by
  simp [eval_batches_of, h]

lemma eval_batches_eq_ceil (N B : ℕ) (hB : 0 < B) :
    eval_batches_of N B = (N + B - 1) / B := by
  have h1 := Nat.div_add_mod N B
  have h2 : N % B < B := Nat.mod_lt N hB
  by_cases h : N % B = 0
  · have e1 : N + B - 1 = (B - 1) + B * (N / B) := by omega
    have e3 : (B - 1) / B = 0 := Nat.div_eq_of_lt (by omega)
    rw [eval_batches_of_mod_zero N B h, e1, Nat.add_mul_div_left _ _ hB, e3]
    omega
  · have e2 : B * (N / B + 1) = B * (N / B) + B := by ring
    have e1 : N + B - 1 = (N % B - 1) + B * (N / B + 1) := by omega
    have e3 : (N % B - 1) / B = 0 := Nat.div_eq_of_lt (by omega)
    rw [eval_batches_of_mod_pos N B h, e1, Nat.add_mul_div_left _ _ hB, e3]
    omega

lemma le_eval_batches_mul (N B : ℕ) (hB : 0 < B) :
    N ≤ eval_batches_of N B * B := by
  have h1 := Nat.div_add_mod N B
  have h2 : N % B < B := Nat.mod_lt N hB
  by_cases h : N % B = 0
  · have h3 : N / B * B = B * (N / B) := Nat.mul_comm _ _
    rw [eval_batches_of_mod_zero N B h]
    omega
  · have h4 : (N / B + 1) * B = B * (N / B) + B := by ring
    rw [eval_batches_of_mod_pos N B h]
    omega

lemma eval_full_batch_mul_le (N B i : ℕ) (hB : 0 < B)
    (hi : i + 1 < eval_batches_of N B) : (i + 1) * B ≤ N := by
  have h1 := Nat.div_add_mod N B
  have key : i + 1 ≤ N / B := by
    by_cases h : N % B = 0
    · rw [eval_batches_of_mod_zero N B h] at hi; omega
    · rw [eval_batches_of_mod_pos N B h] at hi; omega
  calc (i + 1) * B ≤ N / B * B := Nat.mul_le_mul_right B key
    _ = B * (N / B) := Nat.mul_comm _ _
    _ ≤ B * (N / B) + N % B := Nat.le_add_right _ _
    _ = N := h1

lemma batch_slice_full_length {α : Type} (images : List α) (B i : ℕ)
    (hB : 0 < B) (hi : i + 1 < eval_batches_of images.length B) :
    (batch_slice images B i).length = B := by
  have h1 := eval_full_batch_mul_le images.length B i hB hi
  have h2 : (i + 1) * B = i * B + B := Nat.succ_mul i B
  rw [batch_slice_length]
  omega

lemma batch_slice_last_length {α : Type} (images : List α) (B : ℕ)
    (hB : 0 < B) (hN : 0 < images.length) :
    (batch_slice images B (eval_batches_of images.length B - 1)).length
      = if images.length % B = 0 then B else images.length % B := by
  have h1 := Nat.div_add_mod images.length B
  have h2 : images.length % B < B := Nat.mod_lt _ hB
  rw [batch_slice_length]
  by_cases h : images.length % B = 0
  · have hq : 0 < images.length / B :=
      Nat.div_pos (Nat.le_of_dvd hN (Nat.dvd_of_mod_eq_zero h)) hB
    rw [eval_batches_of_mod_zero _ _ h]
    have e1 : (images.length / B - 1) * B = images.length / B * B - B := by
      rw [Nat.sub_mul, Nat.one_mul]
    have e2 : images.length / B * B = B * (images.length / B) := Nat.mul_comm _ _
    have e3 : B ≤ images.length / B * B := by
      calc B = 1 * B := (Nat.one_mul B).symm
      _ ≤ images.length / B * B := Nat.mul_le_mul_right B hq
    rw [if_pos h]
    omega
  · rw [eval_batches_of_mod_pos _ _ h, Nat.add_sub_cancel]
    have e2 : images.length / B * B = B * (images.length / B) := Nat.mul_comm _ _
    rw [if_neg h]
    omega

lemma eval_loop_count {α : Type}
    (predsOf : List α → List (List ℚ) → List (List ℚ))
    (B : ℕ) (images : List α) (labels : List (List ℚ)) (n : ℕ)
    (Hlen : ∀ i < n,
      (predsOf (batch_slice images B i) (batch_slice labels B i)).length
        = (batch_slice images B i).length) :
    (eval_loop predsOf B images labels n).2 = min (n * B) images.length := by
  induction n with
  | zero => simp [eval_loop]
  | succ k ih =>
    have hk := ih (fun i hi => Hlen i (Nat.lt_succ_of_lt hi))
    have hl := Hlen k (Nat.lt_succ_self k)
    have hs := batch_slice_length images B k
    have hmul : (k + 1) * B = k * B + B := Nat.succ_mul k B
    simp only [eval_loop, hk, hl, hs]
    omega

lemma eval_loop_correct_le {α : Type}
    (predsOf : List α → List (List ℚ) → List (List ℚ))
    (B : ℕ) (images : List α) (labels : List (List ℚ)) (n : ℕ) :
    (eval_loop predsOf B images labels n).1
      ≤ (eval_loop predsOf B images labels n).2 := by
  induction n with
  | zero => simp [eval_loop]
  | succ k ih =>
    have h := num_matches_le (batch_slice labels B k)
      (predsOf (batch_slice images B k) (batch_slice labels B k))
    simp only [eval_loop]
    omega

lemma eval_loop_correct_eq {α : Type}
    (predsOf : List α → List (List ℚ) → List (List ℚ))
    (B : ℕ) (images : List α) (labels : List (List ℚ)) (n : ℕ)
    (hNl : labels.length = images.length)
    (Hlen : ∀ i < n,
      (predsOf (batch_slice images B i) (batch_slice labels B i)).length
        = (batch_slice images B i).length)
    (Hmatch : ∀ i < n, ∀ p ∈ (batch_slice labels B i).zip
        (predsOf (batch_slice images B i) (batch_slice labels B i)),
      np_argmax p.1 = np_argmax p.2) :
    (eval_loop predsOf B images labels n).1
      = (eval_loop predsOf B images labels n).2 := by
  induction n with
  | zero => rfl
  | succ k ih =>
    have hk := ih (fun i hi => Hlen i (Nat.lt_succ_of_lt hi))
      (fun i hi => Hmatch i (Nat.lt_succ_of_lt hi))
    have hpl : (predsOf (batch_slice images B k) (batch_slice labels B k)).length
        = (batch_slice labels B k).length := by
      rw [Hlen k (Nat.lt_succ_self k), batch_slice_length, batch_slice_length, hNl]
    have hm := num_matches_eq_of_argmax_eq _ _ hpl (Hmatch k (Nat.lt_succ_self k))
    simp only [eval_loop, hk, hm]

lemma eval_on_run {α : Type}
    (predsOf : List α → List (List ℚ) → List (List ℚ))
    (B : ℕ) (images : List α) (labels : List (List ℚ))
    (hB : 1 ≤ B) (hN : 1 ≤ images.length)
    (hlen : labels.length = images.length)
    (Hlen : ∀ i < eval_batches_of images.length B,
      (predsOf (batch_slice images B i) (batch_slice labels B i)).length
        = (batch_slice images B i).length) :
    eval_on predsOf B images labels =
      ⟨.ok (((eval_loop predsOf B images labels
          (eval_batches_of images.length B)).1 : ℚ) / (images.length : ℚ)),
       eval_batches_of images.length B⟩ := by
  have hcount : (eval_loop predsOf B images labels
      (eval_batches_of images.length B)).2 = images.length := by
    rw [eval_loop_count predsOf B images labels _ Hlen]
    have := le_eval_batches_mul images.length B hB
    omega
  simp only [eval_on]
  rw [hcount, if_neg (by omega : ¬ images.length ≠ labels.length),
    if_neg (by omega : ¬ B = 0),
    if_neg (by omega : ¬ images.length ≠ images.length),
    if_neg (by omega : ¬ images.length = 0)]

lemma train_loop_fetched {α : Type}
    (predsOf : ℕ → List α → List (List ℚ) → List (List ℚ))
    (next_batch : ℕ → ℕ → List α × List (List ℚ)) (curr_epoch n : ℕ) :
    (train_loop predsOf next_batch curr_epoch n).fetched = n := by
  induction n with
  | zero => rfl
  | succ k ih => simp only [train_loop, ih]

lemma train_loop_lr_iters {α : Type}
    (predsOf : ℕ → List α → List (List ℚ) → List (List ℚ))
    (next_batch : ℕ → ℕ → List α × List (List ℚ)) (curr_epoch n : ℕ) :
    (train_loop predsOf next_batch curr_epoch n).lr_iters
      = (List.range n).map (fun s => some (s + 1)) := by
  induction n with
  | zero => rfl
  | succ k ih =>
    simp only [train_loop, ih, List.range_succ, List.map_append,
      List.map_cons, List.map_nil]

lemma train_loop_correct {α : Type}
    (predsOf : ℕ → List α → List (List ℚ) → List (List ℚ))
    (next_batch : ℕ → ℕ → List α × List (List ℚ)) (curr_epoch n : ℕ) :
    (train_loop predsOf next_batch curr_epoch n).correct
      = epoch_correct predsOf next_batch curr_epoch n := by
  induction n with
  | zero => rfl
  | succ k ih =>
    simp only [train_loop, ih, epoch_correct, List.range_succ, List.map_append,
      List.sum_append, List.map_cons, List.map_nil, List.sum_cons, List.sum_nil,
      Nat.add_zero]

lemma train_loop_count {α : Type}
    (predsOf : ℕ → List α → List (List ℚ) → List (List ℚ))
    (next_batch : ℕ → ℕ → List α × List (List ℚ)) (curr_epoch n : ℕ) :
    (train_loop predsOf next_batch curr_epoch n).count
      = epoch_count predsOf next_batch curr_epoch n := by
  induction n with
  | zero => rfl
  | succ k ih =>
    simp only [train_loop, ih, epoch_count, List.range_succ, List.map_append,
      List.sum_append, List.map_cons, List.map_nil, List.sum_cons, List.sum_nil,
      Nat.add_zero]

/-! ### Claim theorems -/

/-- C2: for every `mode` other than `"val"` and `"test"`, `eval_child_model`
raises `ValueError` before running any evaluation batch; for `"val"` it
evaluates the loader's validation arrays and for `"test"` its test arrays. -/
theorem eval_child_model_mode_dispatch {α : Type}
    (predsOf : List α → List (List ℚ) → List (List ℚ))
    (B : ℕ) (data_loader : DataLoader α) (mode : String) :
    (mode ≠ "val" → mode ≠ "test" →
      eval_child_model predsOf B data_loader mode = ⟨.error .valueError, 0⟩) ∧
    eval_child_model predsOf B data_loader "val"
      = eval_on predsOf B data_loader.val_images data_loader.val_labels ∧
    eval_child_model predsOf B data_loader "test"
      = eval_on predsOf B data_loader.test_images data_loader.test_labels := by
  refine ⟨fun h1 h2 => ?_, ?_, ?_⟩
  · simp [eval_child_model, h1, h2]
  · rfl
  · rfl

/-- Witness for C2 at `mode = "train"`. -/
theorem eval_child_model_mode_dispatch_witness :
    eval_child_model (fun (_ : List ℕ) lb => lb) 2
      ⟨[0], [[1]], [2], [[1]]⟩ "train" = ⟨.error .valueError, 0⟩ :=
  (eval_child_model_mode_dispatch (fun (_ : List ℕ) lb => lb) 2
    ⟨[0], [[1]], [2], [[1]]⟩ "train").1 (by decide) (by decide)

/-- C4: for `N ≥ 1` images and batch size `B ≥ 1`, the evaluation loop of
`eval_child_model` runs exactly `⌈N/B⌉ = (N+B-1)/B` batches; every batch
except possibly the last has exactly `B` elements, and the last batch has
`N mod B` elements when that is nonzero and `B` elements otherwise. -/
theorem eval_child_model_batch_partitioning {α : Type} (images : List α)
    (B : ℕ) (hN : 1 ≤ images.length) (hB : 1 ≤ B) :
    eval_batches_of images.length B = (images.length + B - 1) / B ∧
    (∀ (predsOf : List α → List (List ℚ) → List (List ℚ))
      (labels : List (List ℚ)), labels.length = images.length →
      (eval_on predsOf B images labels).batches_run
        = eval_batches_of images.length B) ∧
    (∀ i, i + 1 < eval_batches_of images.length B →
      (batch_slice images B i).length = B) ∧
    (batch_slice images B (eval_batches_of images.length B - 1)).length
      = (if images.length % B = 0 then B else images.length % B) := by
  refine ⟨eval_batches_eq_ceil images.length B hB, ?_,
    fun i hi => batch_slice_full_length images B i hB hi,
    batch_slice_last_length images B hB hN⟩
  intro predsOf labels hlen
  simp only [eval_on]
  rw [if_neg (by omega : ¬ images.length ≠ labels.length),
    if_neg (by omega : ¬ B = 0)]
  split
  · rfl
  · split <;> rfl

/-- Witness for C4 at five images and batch size two. -/
theorem eval_child_model_batch_partitioning_witness :
    eval_batches_of ([0, 1, 2, 3, 4] : List ℕ).length 2
        = (([0, 1, 2, 3, 4] : List ℕ).length + 2 - 1) / 2 ∧
    (batch_slice ([0, 1, 2, 3, 4] : List ℕ) 2
        (eval_batches_of ([0, 1, 2, 3, 4] : List ℕ).length 2 - 1)).length
      = (if ([0, 1, 2, 3, 4] : List ℕ).length % 2 = 0 then 2
         else ([0, 1, 2, 3, 4] : List ℕ).length % 2) := by
  have h := eval_child_model_batch_partitioning ([0, 1, 2, 3, 4] : List ℕ) 2
    (by decide) (by decide)
  exact ⟨h.1, h.2.2.2⟩

/-- C8: `eval_child_model` fails the first (length) assertion exactly when
the selected image and label arrays differ in length, before any batching;
and when `session.run` returns one prediction per fed image, the
accumulated prediction count equals the total number of images, so the
post-loop assertion never fails. -/
theorem eval_child_model_assertions {α : Type}
    (predsOf : List α → List (List ℚ) → List (List ℚ))
    (B : ℕ) (images : List α) (labels : List (List ℚ)) :
    (images.length ≠ labels.length →
      eval_on predsOf B images labels = ⟨.error .assertionError, 0⟩) ∧
    (1 ≤ B →
      (∀ i < eval_batches_of images.length B,
        (predsOf (batch_slice images B i) (batch_slice labels B i)).length
          = (batch_slice images B i).length) →
      (eval_loop predsOf B images labels (eval_batches_of images.length B)).2
        = images.length) ∧
    (1 ≤ B →
      (∀ i < eval_batches_of images.length B,
        (predsOf (batch_slice images B i) (batch_slice labels B i)).length
          = (batch_slice images B i).length) →
      images.length = labels.length →
      isAssertionErr (eval_on predsOf B images labels).res = false) := by
  have hcnt : ∀ (_ : 1 ≤ B),
      (∀ i < eval_batches_of images.length B,
        (predsOf (batch_slice images B i) (batch_slice labels B i)).length
          = (batch_slice images B i).length) →
      (eval_loop predsOf B images labels (eval_batches_of images.length B)).2
        = images.length := by
    intro hB Hlen
    rw [eval_loop_count predsOf B images labels _ Hlen]
    have := le_eval_batches_mul images.length B hB
    omega
  refine ⟨fun h => ?_, hcnt, fun hB Hlen hlen => ?_⟩
  · simp only [eval_on]
    rw [if_pos h]
  · have hc := hcnt hB Hlen
    simp only [eval_on]
    rw [hc, if_neg (by omega : ¬ images.length ≠ labels.length),
      if_neg (by omega : ¬ B = 0),
      if_neg (by omega : ¬ images.length ≠ images.length)]
    split
    · rfl
    · rfl

/-- Witness for C8 at mismatched lengths and at a well-formed run. -/
theorem eval_child_model_assertions_witness :
    eval_on (fun (_ : List ℕ) lb => lb) 2 [0] [] = ⟨.error .assertionError, 0⟩ ∧
    isAssertionErr (eval_on (fun (im : List ℕ) _ => im.map (fun _ => [1]))
      2 [0, 1, 2] [[1], [1], [1]]).res = false := by
  have h1 := (eval_child_model_assertions (fun (_ : List ℕ) lb => lb)
    2 [0] []).1 (by decide)
  have h2 := (eval_child_model_assertions
    (fun (im : List ℕ) _ => im.map (fun _ => ([1] : List ℚ)))
    2 [0, 1, 2] [[1], [1], [1]]).2.2 (by decide)
    (by decide) (by decide)
  exact ⟨h1, h2⟩

/-- C9: on an empty selected dataset `eval_child_model` runs zero batches,
passes both assertions and raises `ZeroDivisionError` at `correct / count`;
`run_epoch_training` likewise raises `ZeroDivisionError` when
`steps_per_epoch = floor(train_size / batch_size)` is zero. -/
theorem empty_data_zero_division_errors {α : Type}
    (predsOf : List α → List (List ℚ) → List (List ℚ)) (B : ℕ)
    (data_loader : DataLoader α)
    (cos : ℚ → ℕ → ℕ → ℕ → ℕ → ℚ)
    (predsOfT : ℕ → List α → List (List ℚ) → List (List ℚ))
    (next_batch : ℕ → ℕ → List α × List (List ℚ))
    (hparams : HParams) (curr_step curr_epoch : ℕ) :
    (1 ≤ B → data_loader.val_images = [] → data_loader.val_labels = [] →
      eval_child_model predsOf B data_loader "val"
        = ⟨.error .zeroDivisionError, 0⟩) ∧
    (hparams.batch_size ≠ 0 → hparams.train_size / hparams.batch_size = 0 →
      run_epoch_training cos predsOfT next_batch hparams curr_step curr_epoch
        = ⟨.error .zeroDivisionError, 0, []⟩) := by
  constructor
  · intro hB hvi hvl
    have : eval_child_model predsOf B data_loader "val"
        = eval_on predsOf B data_loader.val_images data_loader.val_labels := rfl
    rw [this, hvi, hvl]
    simp only [eval_on, List.length_nil]
    rw [if_neg (by omega : ¬ (0 : ℕ) ≠ 0), if_neg (by omega : ¬ B = 0)]
    have he : eval_batches_of 0 B = 0 := by
      simp [eval_batches_of, Nat.zero_div, Nat.zero_mod]
    rw [he]
    rfl
  · intro hbs hspe
    simp only [run_epoch_training]
    rw [if_neg hbs, if_pos hspe]

/-- Witness for C9: empty validation set, and zero steps per epoch. -/
theorem empty_data_zero_division_errors_witness :
    eval_child_model (fun (_ : List ℕ) lb => lb) 2
      ⟨[], [], [7], [[1]]⟩ "val" = ⟨.error .zeroDivisionError, 0⟩ ∧
    run_epoch_training (fun _ _ _ _ _ => 0) (fun _ (_ : List ℕ) lb => lb)
      (fun _ _ => ([], [])) ⟨"cifar10", "wrn", 2, 160, 3, 4⟩ 0 0
      = ⟨.error .zeroDivisionError, 0, []⟩ := by
  have h := empty_data_zero_division_errors (fun (_ : List ℕ) lb => lb) 2
    ⟨[], [], [7], [[1]]⟩ (fun _ _ _ _ _ => 0) (fun _ (_ : List ℕ) lb => lb)
    (fun _ _ => ([], [])) ⟨"cifar10", "wrn", 2, 160, 3, 4⟩ 0 0
  exact ⟨h.1 (by decide) rfl rfl, h.2 (by decide) (by decide)⟩

/-- C6: for a valid evaluation run (`mode` in {"val","test"}, non-empty
selected images, label array of matching length, one prediction per fed
image) `eval_child_model` returns an accuracy in `[0, 1]`, and returns
exactly `1` when in every batch the argmax of each prediction equals the
argmax of the corresponding label. -/
theorem eval_child_model_accuracy {α : Type}
    (predsOf : List α → List (List ℚ) → List (List ℚ))
    (B : ℕ) (data_loader : DataLoader α) (mode : String)
    (hmode : mode = "val" ∨ mode = "test")
    (hB : 1 ≤ B) (hN : 1 ≤ (sel_images data_loader mode).length)
    (hlen : (sel_labels data_loader mode).length
      = (sel_images data_loader mode).length)
    (Hlen : ∀ i < eval_batches_of (sel_images data_loader mode).length B,
      (predsOf (batch_slice (sel_images data_loader mode) B i)
        (batch_slice (sel_labels data_loader mode) B i)).length
       = (batch_slice (sel_images data_loader mode) B i).length) :
    ∃ q : ℚ, (eval_child_model predsOf B data_loader mode).res = .ok q ∧
      0 ≤ q ∧ q ≤ 1 ∧
      ((∀ i < eval_batches_of (sel_images data_loader mode).length B,
        ∀ p ∈ (batch_slice (sel_labels data_loader mode) B i).zip
          (predsOf (batch_slice (sel_images data_loader mode) B i)
            (batch_slice (sel_labels data_loader mode) B i)),
        np_argmax p.1 = np_argmax p.2) → q = 1) := by
  have hrun := eval_on_run predsOf B (sel_images data_loader mode)
    (sel_labels data_loader mode) hB hN hlen Hlen
  have hsel : eval_child_model predsOf B data_loader mode
      = eval_on predsOf B (sel_images data_loader mode)
        (sel_labels data_loader mode) := by
    rcases hmode with h | h <;> subst h <;> rfl
  have hcount : (eval_loop predsOf B (sel_images data_loader mode)
      (sel_labels data_loader mode)
      (eval_batches_of (sel_images data_loader mode).length B)).2
      = (sel_images data_loader mode).length := by
    rw [eval_loop_count predsOf B _ _ _ Hlen]
    have := le_eval_batches_mul (sel_images data_loader mode).length B hB
    omega
  have hle := eval_loop_correct_le predsOf B (sel_images data_loader mode)
    (sel_labels data_loader mode)
    (eval_batches_of (sel_images data_loader mode).length B)
  have hNpos : (0 : ℚ) < ((sel_images data_loader mode).length : ℚ) := by
    exact_mod_cast Nat.lt_of_lt_of_le Nat.zero_lt_one hN
  refine ⟨_, by rw [hsel, hrun], ?_, ?_, ?_⟩
  · exact div_nonneg (Nat.cast_nonneg _) (Nat.cast_nonneg _)
  · apply div_le_one_of_le₀
    · exact_mod_cast hcount ▸ hle
    · exact Nat.cast_nonneg _
  · intro Hmatch
    have heq := eval_loop_correct_eq predsOf B (sel_images data_loader mode)
      (sel_labels data_loader mode)
      (eval_batches_of (sel_images data_loader mode).length B) hlen Hlen Hmatch
    rw [heq, hcount]
    exact div_self (ne_of_gt hNpos)

/-- Witness for C6: three images, batch size two, predictions whose argmax
matches the labels everywhere. -/
theorem eval_child_model_accuracy_witness :
    ∃ q : ℚ, (eval_child_model
        (fun (im : List ℕ) _ => im.map (fun _ => ([3, 1] : List ℚ))) 2
        (⟨[0, 1, 2], [[1, 0], [1, 0], [1, 0]], [], []⟩ : DataLoader ℕ)
        "val").res = .ok q ∧
      0 ≤ q ∧ q ≤ 1 ∧
      ((∀ i < eval_batches_of
          (sel_images (⟨[0, 1, 2], [[1, 0], [1, 0], [1, 0]], [], []⟩ :
            DataLoader ℕ) "val").length 2,
        ∀ p ∈ (batch_slice (sel_labels (⟨[0, 1, 2], [[1, 0], [1, 0], [1, 0]],
            [], []⟩ : DataLoader ℕ) "val") 2 i).zip
          ((fun (im : List ℕ) _ => im.map (fun _ => ([3, 1] : List ℚ)))
            (batch_slice (sel_images (⟨[0, 1, 2], [[1, 0], [1, 0], [1, 0]],
              [], []⟩ : DataLoader ℕ) "val") 2 i)
            (batch_slice (sel_labels (⟨[0, 1, 2], [[1, 0], [1, 0], [1, 0]],
              [], []⟩ : DataLoader ℕ) "val") 2 i)),
        np_argmax p.1 = np_argmax p.2) → q = 1) :=
  eval_child_model_accuracy
    (fun (im : List ℕ) _ => im.map (fun _ => ([3, 1] : List ℚ))) 2
    (⟨[0, 1, 2], [[1, 0], [1, 0], [1, 0]], [], []⟩ : DataLoader ℕ) "val"
    (Or.inl rfl) (by decide) (by decide) (by decide) (by decide)

lemma run_epoch_training_run {α : Type} (cos : ℚ → ℕ → ℕ → ℕ → ℕ → ℚ)
    (predsOf : ℕ → List α → List (List ℚ) → List (List ℚ))
    (next_batch : ℕ → ℕ → List α × List (List ℚ))
    (hparams : HParams) (curr_step curr_epoch : ℕ)
    (h1 : hparams.batch_size ≠ 0)
    (h2 : hparams.train_size / hparams.batch_size ≠ 0)
    (h3 : curr_step % (hparams.train_size / hparams.batch_size) = 0) :
    run_epoch_training cos predsOf next_batch hparams curr_step curr_epoch =
      (if (train_loop predsOf next_batch curr_epoch
            (hparams.train_size / hparams.batch_size)).count = 0 then
        ⟨.error .zeroDivisionError,
         (train_loop predsOf next_batch curr_epoch
           (hparams.train_size / hparams.batch_size)).fetched,
         some 0 :: (train_loop predsOf next_batch curr_epoch
           (hparams.train_size / hparams.batch_size)).lr_iters⟩
      else
        ⟨.ok (((train_loop predsOf next_batch curr_epoch
            (hparams.train_size / hparams.batch_size)).correct : ℚ)
          / ((train_loop predsOf next_batch curr_epoch
            (hparams.train_size / hparams.batch_size)).count : ℚ)),
         (train_loop predsOf next_batch curr_epoch
           (hparams.train_size / hparams.batch_size)).fetched,
         some 0 :: (train_loop predsOf next_batch curr_epoch
           (hparams.train_size / hparams.batch_size)).lr_iters⟩) := by
  simp only [run_epoch_training, get_lr]
  rw [if_neg h1, if_neg h2, if_neg (not_not_intro h3), if_neg h1]

/-- C3: when `steps_per_epoch = floor(train_size / batch_size) ≥ 1` and the
global-step precondition holds, `run_epoch_training` fetches exactly
`steps_per_epoch` batches through `next_batch`, and (when at least one
prediction was accumulated) returns accumulated-matches /
accumulated-prediction-count over those steps. -/
theorem run_epoch_training_steps_and_accuracy {α : Type}
    (cos : ℚ → ℕ → ℕ → ℕ → ℕ → ℚ)
    (predsOf : ℕ → List α → List (List ℚ) → List (List ℚ))
    (next_batch : ℕ → ℕ → List α × List (List ℚ))
    (hparams : HParams) (curr_step curr_epoch : ℕ)
    (hspe : 1 ≤ hparams.train_size / hparams.batch_size)
    (hstep : curr_step % (hparams.train_size / hparams.batch_size) = 0)
    (hcnt : epoch_count predsOf next_batch curr_epoch
      (hparams.train_size / hparams.batch_size) ≠ 0) :
    (run_epoch_training cos predsOf next_batch hparams
        curr_step curr_epoch).fetched
      = hparams.train_size / hparams.batch_size ∧
    (run_epoch_training cos predsOf next_batch hparams
        curr_step curr_epoch).res
      = .ok ((epoch_correct predsOf next_batch curr_epoch
            (hparams.train_size / hparams.batch_size) : ℚ)
          / (epoch_count predsOf next_batch curr_epoch
            (hparams.train_size / hparams.batch_size) : ℚ)) := by
  have h1 : hparams.batch_size ≠ 0 := by
    intro h
    rw [h, Nat.div_zero] at hspe
    omega
  rw [run_epoch_training_run cos predsOf next_batch hparams curr_step
    curr_epoch h1 (by omega) hstep,
    if_neg (by rw [train_loop_count]; exact hcnt)]
  exact ⟨train_loop_fetched predsOf next_batch curr_epoch _,
    by rw [train_loop_correct, train_loop_count]⟩

/-- Witness for C3 at two steps per epoch. -/
theorem run_epoch_training_steps_and_accuracy_witness :
    (run_epoch_training (fun _ _ _ _ _ => 0) (fun _ _ lb => lb)
        (fun _ _ => ([7, 8], [[1, 0], [0, 1]]))
        ⟨"cifar10", "wrn", 2, 160, 4, 2⟩ 0 3).fetched = 4 / 2 ∧
    (run_epoch_training (fun _ _ _ _ _ => 0) (fun _ _ lb => lb)
        (fun _ _ => (([7, 8] : List ℕ), [[1, 0], [0, 1]]))
        ⟨"cifar10", "wrn", 2, 160, 4, 2⟩ 0 3).res
      = .ok ((epoch_correct (fun _ _ lb => lb)
            (fun _ _ => (([7, 8] : List ℕ), [[1, 0], [0, 1]])) 3 (4 / 2) : ℚ)
          / (epoch_count (fun _ _ lb => lb)
            (fun _ _ => (([7, 8] : List ℕ), [[1, 0], [0, 1]])) 3 (4 / 2) : ℚ)) :=
  run_epoch_training_steps_and_accuracy (fun _ _ _ _ _ => 0) (fun _ _ lb => lb)
    (fun _ _ => (([7, 8] : List ℕ), [[1, 0], [0, 1]]))
    ⟨"cifar10", "wrn", 2, 160, 4, 2⟩ 0 3 (by decide) (by decide)
    (by decide)

/-- C7 counterexample: with `train_size = 0`, `batch_size = 1` the code
computes `steps_per_epoch = 0`; at global step `1` (not a multiple of `0`)
the modulo raises `ZeroDivisionError`, not an assertion failure. -/
theorem run_epoch_training_zero_spe_counterexample :
    (run_epoch_training (fun _ _ _ _ _ => 0) (fun _ (_ : List ℕ) lb => lb)
        (fun _ _ => ([], [])) ⟨"cifar10", "wrn", 2, 160, 0, 1⟩ 1 0).res
      = .error .zeroDivisionError ∧
    isAssertionErr ((run_epoch_training (fun _ _ _ _ _ => 0)
        (fun _ (_ : List ℕ) lb => lb) (fun _ _ => ([], []))
        ⟨"cifar10", "wrn", 2, 160, 0, 1⟩ 1 0).res) = false :=
  ⟨rfl, rfl⟩

/-- C7 (amended): when `steps_per_epoch ≥ 1` and the global step is not a
multiple of it, `run_epoch_training` raises an assertion failure before any
training step; when `steps_per_epoch = 0` (with nonzero `batch_size`) the
modulo itself raises `ZeroDivisionError` instead. -/
theorem run_epoch_training_global_step_assertion {α : Type}
    (cos : ℚ → ℕ → ℕ → ℕ → ℕ → ℚ)
    (predsOf : ℕ → List α → List (List ℚ) → List (List ℚ))
    (next_batch : ℕ → ℕ → List α × List (List ℚ))
    (hparams : HParams) (curr_step curr_epoch : ℕ) :
    (1 ≤ hparams.train_size / hparams.batch_size →
      curr_step % (hparams.train_size / hparams.batch_size) ≠ 0 →
      run_epoch_training cos predsOf next_batch hparams curr_step curr_epoch
        = ⟨.error .assertionError, 0, []⟩) ∧
    (hparams.batch_size ≠ 0 → hparams.train_size / hparams.batch_size = 0 →
      run_epoch_training cos predsOf next_batch hparams curr_step curr_epoch
        = ⟨.error .zeroDivisionError, 0, []⟩) := by
  constructor
  · intro hspe hmult
    have h1 : hparams.batch_size ≠ 0 := by
      intro h
      rw [h, Nat.div_zero] at hspe
      omega
    simp only [run_epoch_training]
    rw [if_neg h1, if_neg (by omega : ¬ hparams.train_size / hparams.batch_size = 0),
      if_pos hmult]
  · intro hbs hspe
    simp only [run_epoch_training]
    rw [if_neg hbs, if_pos hspe]

/-- Witness for C7's amended theorem at `steps_per_epoch = 2`,
global step 3. -/
theorem run_epoch_training_global_step_assertion_witness :
    run_epoch_training (fun _ _ _ _ _ => 0) (fun _ (_ : List ℕ) lb => lb)
        (fun _ _ => ([], [])) ⟨"cifar10", "wrn", 2, 160, 4, 2⟩ 3 0
      = ⟨.error .assertionError, 0, []⟩ :=
  (run_epoch_training_global_step_assertion (fun _ _ _ _ _ => 0)
    (fun _ (_ : List ℕ) lb => lb) (fun _ _ => ([], []))
    ⟨"cifar10", "wrn", 2, 160, 4, 2⟩ 3 0).1 (by decide) (by decide)

/-- C10: `get_lr` with `iteration = None` raises an assertion failure
regardless of epoch and hparams; and a completed `run_epoch_training`
passes `iteration = 0` before the loop and `iteration = step + 1`
(for steps `0 .. steps_per_epoch - 1`) inside it, never `None`. -/
theorem get_lr_iteration_precondition {α : Type}
    (cos : ℚ → ℕ → ℕ → ℕ → ℕ → ℚ) (curr_epoch : ℕ) (hparams : HParams)
    (predsOf : ℕ → List α → List (List ℚ) → List (List ℚ))
    (next_batch : ℕ → ℕ → List α × List (List ℚ)) (curr_step : ℕ) :
    get_lr cos curr_epoch hparams none = .error .assertionError ∧
    (1 ≤ hparams.train_size / hparams.batch_size →
      curr_step % (hparams.train_size / hparams.batch_size) = 0 →
      (run_epoch_training cos predsOf next_batch hparams
          curr_step curr_epoch).lr_iters
        = some 0 :: (List.range (hparams.train_size / hparams.batch_size)).map
            (fun s => some (s + 1))) := by
  refine ⟨rfl, fun hspe hstep => ?_⟩
  have h1 : hparams.batch_size ≠ 0 := by
    intro h
    rw [h, Nat.div_zero] at hspe
    omega
  rw [run_epoch_training_run cos predsOf next_batch hparams curr_step
    curr_epoch h1 (by omega) hstep]
  split
  · simp [train_loop_lr_iters]
  · simp [train_loop_lr_iters]

/-- Witness for C10 at `steps_per_epoch = 2`. -/
theorem get_lr_iteration_precondition_witness :
    get_lr (fun _ _ _ _ _ => 0) 3 ⟨"cifar10", "wrn", 2, 160, 4, 2⟩ none
      = .error .assertionError ∧
    (run_epoch_training (fun _ _ _ _ _ => 0) (fun _ _ lb => lb)
        (fun _ _ => (([7, 8] : List ℕ), [[1, 0], [0, 1]]))
        ⟨"cifar10", "wrn", 2, 160, 4, 2⟩ 0 3).lr_iters
      = some 0 :: (List.range (4 / 2)).map (fun s => some (s + 1)) := by
  have h := get_lr_iteration_precondition (fun _ _ _ _ _ => 0) 3
    ⟨"cifar10", "wrn", 2, 160, 4, 2⟩ (fun _ _ lb => lb)
    (fun _ _ => (([7, 8] : List ℕ), [[1, 0], [0, 1]])) 0
  exact ⟨h.1, h.2 (by decide) (by decide)⟩

/-- C5: `get_lr` dispatches by substring matching: the step-decay branch is
taken exactly when `"svhn"` occurs in the dataset and `"wrn"` in the model
name; the cosine schedule is used without warning when `"cifar"` occurs in
the dataset or `"svhn"` occurs with `"shake_shake"`; every other
combination falls back to the cosine schedule with a warning. -/
theorem get_lr_schedule_dispatch (cos : ℚ → ℕ → ℕ → ℕ → ℕ → ℚ)
    (curr_epoch : ℕ) (hparams : HParams) (it : ℕ)
    (hbs : hparams.batch_size ≠ 0) :
    ((strIn "svhn" hparams.dataset && strIn "wrn" hparams.model_name) = true →
      get_lr cos curr_epoch hparams (some it)
        = .ok ⟨.closure (step_lr hparams.lr curr_epoch), false⟩) ∧
    ((strIn "svhn" hparams.dataset && strIn "wrn" hparams.model_name) = false →
      (strIn "cifar" hparams.dataset || (strIn "svhn" hparams.dataset &&
        strIn "shake_shake" hparams.model_name)) = true →
      get_lr cos curr_epoch hparams (some it)
        = .ok ⟨.float (cos hparams.lr curr_epoch it
            (hparams.train_size / hparams.batch_size) hparams.num_epochs),
          false⟩) ∧
    ((strIn "svhn" hparams.dataset && strIn "wrn" hparams.model_name) = false →
      (strIn "cifar" hparams.dataset || (strIn "svhn" hparams.dataset &&
        strIn "shake_shake" hparams.model_name)) = false →
      get_lr cos curr_epoch hparams (some it)
        = .ok ⟨.float (cos hparams.lr curr_epoch it
            (hparams.train_size / hparams.batch_size) hparams.num_epochs),
          true⟩) := by
  refine ⟨fun h1 => ?_, fun h1 h2 => ?_, fun h1 h2 => ?_⟩
  · simp [get_lr, get_lr_core, hbs, h1]
  · simp [get_lr, get_lr_core, hbs, h1, h2]
  · simp [get_lr, get_lr_core, hbs, h1, h2]

/-- Witness for C5: an unrecognized dataset/model pair falls back to the
cosine schedule with the warning. -/
theorem get_lr_schedule_dispatch_witness :
    get_lr (fun _ _ _ _ _ => 0) 5 ⟨"imagenet", "resnet", 2, 90, 100, 10⟩
      (some 3) = .ok ⟨.float 0, true⟩ :=
  (get_lr_schedule_dispatch (fun _ _ _ _ _ => 0) 5
    ⟨"imagenet", "resnet", 2, 90, 100, 10⟩ 3 (by decide)).2.2
    (by decide) (by decide)

/-- C1 (code evidence): on the svhn + wrn branch `get_lr` returns the inner
closure produced by `step_lr` without ever calling it — a function object,
not a float — even though that closure would evaluate to the step-decay
values `lr`, `0.1*lr`, `0.01*lr` at epochs 40, 100, 150. -/
theorem get_lr_svhn_wrn_returns_closure :
    get_lr (fun _ _ _ _ _ => 0) 40 ⟨"svhn", "wrn_28_10", 2, 160, 1000, 10⟩
        (some 0) = .ok ⟨.closure (step_lr 2 40), false⟩ ∧
    LrValue.isFloat (.closure (step_lr 2 40)) = false ∧
    step_lr 2 40 40 = 2 ∧ step_lr 2 40 100 = 2 * 0.1 ∧
    step_lr 2 40 150 = 2 * 0.01 := by
  refine ⟨rfl, rfl, ?_, ?_, ?_⟩ <;> norm_num [step_lr, step_lr_inner]
